import Mathlib

/-!
Verification development for the kedro `DataCatalog` component
(`kedro/io/data_catalog.py`) together with `MemoryDataSet`
(`kedro/io/memory_data_set.py`).

Modelling choices:
* Python `dict`s are modelled as insertion-ordered association lists with
  Python assignment semantics: assigning to an existing key keeps its
  position, assigning to a fresh key appends at the end.
* Dataset *instances* are modelled by natural-number ids pointing into an
  explicit heap (`RunState.heap`), so that instance sharing between catalogs
  (`shallow_copy`, `add_feed_dict` with a dataset value) is observable.
  The heap cell of a `MemoryDataSet` holds `Option α`: `none` models the
  `_EMPTY` sentinel, `some v` models stored data.  `copy.deepcopy` on pure
  values is the identity, so `_load`/`_save` move values unchanged.
* Transformers are modelled by ids with the tracing semantics of the spec's
  "counting transformer": on load/save a transformer records its id in the
  run trace and calls straight through to the next operation.  The chain
  composition itself (`_get_transformed_dataset_function`) is translated
  generically, exactly following the `functools` fold of the source.
* Exceptions are modelled with `Except`: an operation that raises returns
  `.error e` and produces no successor state, which is how "no partial
  mutation on failure" is expressed here.
* Logging and warnings (`self._logger`, `warn`) have no effect on catalog
  state and are not modelled.
-/

/-- Python dict lookup `d[k]` as an `Option`, on an insertion-ordered
association list. -/
def pyDictGet {κ ν : Type} [DecidableEq κ] (l : List (κ × ν)) (k : κ) : Option ν :=
  match l with
  | [] => none
  | (k2, v2) :: rest => if k2 = k then some v2 else pyDictGet rest k

/-- Python dict assignment `d[k] = v`: replaces in place when the key exists
(keeping its position), appends at the end otherwise. -/
def pyDictSet {κ ν : Type} [DecidableEq κ] (l : List (κ × ν)) (k : κ) (v : ν) :
    List (κ × ν) :=
  match l with
  | [] => [(k, v)]
  | (k2, v2) :: rest =>
      if k2 = k then (k, v) :: rest else (k2, v2) :: pyDictSet rest k v

/-- Python `d[k].append(x)` on a dict of lists; a no-op when the key is
absent (the source would raise `KeyError` there, but the catalog invariant
keeps `_transformers` keyed exactly by the registered dataset names). -/
def pyDictAppend {κ ν : Type} [DecidableEq κ] (l : List (κ × List ν)) (k : κ) (x : ν) :
    List (κ × List ν) :=
  match l with
  | [] => []
  | (k2, v2) :: rest =>
      if k2 = k then (k2, v2 ++ [x]) :: pyDictAppend rest k x
      else (k2, v2) :: pyDictAppend rest k x

/-- Keys of a Python dict, in insertion order (`list(d.keys())`). -/
def pyDictKeys {κ ν : Type} (l : List (κ × ν)) : List κ :=
  l.map Prod.fst

/-- Events observable during a catalog run: a transformer invocation
(carrying the transformer's id) or the dataset's raw load/save operation. -/
inductive Ev where
  | tcall (i : Nat)
  | rawLoad
  | rawSave
deriving DecidableEq

/-- Mutable world outside the catalog object: the heap of `MemoryDataSet`
instances (`id ↦ _data`, with `none` for `_EMPTY`) and the trace of
transformer/raw invocations performed so far. -/
structure RunState (α : Type) where
  heap : List (Nat × Option α)
  trace : List Ev
deriving DecidableEq

/-- Errors raised by the catalog, each carrying the offending name and the
message built by the source. -/
inductive CatalogError where
  | dataSetNotFound (name msg : String)
  | dataSetAlreadyExists (name msg : String)
  | dataSetError (msg : String)
  | keyError (name msg : String)
deriving DecidableEq

/-- The `DataCatalog` state: `_data_sets` maps names to dataset instance
ids, `_transformers` maps names to transformer-id lists,
`_default_transformers` is the default chain, `_journal` an optional journal
instance id, and `datasets` the `_FrozenDatasets` view (rebuilt from
`_data_sets` by `__init__` and by every `add`). -/
structure DataCatalog (α : Type) where
  data_sets : List (String × Nat)
  transformers : List (String × List Nat)
  default_transformers : List Nat
  journal : Option Nat
  datasets : List (String × Nat)
deriving DecidableEq

/-- The message `"DataSet '<name>' not found in the catalog"`. -/
def notFoundMsg (name : String) : String :=
  "DataSet '" ++ name ++ "' not found in the catalog"

/-- Type of an effectful load operation: consumes a run state, returns the
new state and the loaded value, or raises. -/
def LoadOp (α : Type) : Type :=
  RunState α → Except CatalogError (RunState α × α)

/-- Type of an effectful save operation. -/
def SaveOp (α : Type) : Type :=
  α → RunState α → Except CatalogError (RunState α)

/-- `MemoryDataSet._load` for the instance `dsId`: raises `DataSetError`
when `_data is _EMPTY`, otherwise returns (a deep copy of) the data.  The
raw invocation is recorded in the trace. -/
def rawLoadOp {α : Type} (dsId : Nat) : LoadOp α := fun st =>
  match pyDictGet st.heap dsId with
  | none =>
      .error (.dataSetError "Data for MemoryDataSet has not been saved yet.")
  | some none =>
      .error (.dataSetError "Data for MemoryDataSet has not been saved yet.")
  | some (some v) =>
      .ok ({ st with trace := st.trace ++ [Ev.rawLoad] }, v)

/-- `MemoryDataSet._save` for the instance `dsId`: stores (a deep copy of)
the data, recording the raw invocation in the trace. -/
def rawSaveOp {α : Type} (dsId : Nat) : SaveOp α := fun data st =>
  .ok { st with
        heap := pyDictSet st.heap dsId (some data),
        trace := st.trace ++ [Ev.rawSave] }

/-- A transformer's `load(data_set_name, next)` with the tracing semantics:
record the transformer id, then call straight through. -/
def transformerLoad {α : Type} (i : Nat) (_name : String) (next : LoadOp α) :
    LoadOp α := fun st =>
  next { st with trace := st.trace ++ [Ev.tcall i] }

/-- A transformer's `save(data_set_name, next, data)` with the tracing
semantics. -/
def transformerSave {α : Type} (i : Nat) (_name : String) (next : SaveOp α) :
    SaveOp α := fun data st =>
  next data { st with trace := st.trace ++ [Ev.tcall i] }

/-- `DataCatalog._get_transformed_dataset_function`, generic in the
operation type: starting from the dataset's raw operation, iterate over the
*reversed* transformer list and wrap each transformer around the function
built so far (`func = partial(getattr(transformer, operation), name, func)`),
so the first transformer in the list ends up outermost. -/
def _get_transformed_dataset_function {Op : Type}
    (wrap : Nat → String → Op → Op) (tlist : List Nat) (name : String)
    (raw : Op) : Op :=
  tlist.reverse.foldl (fun func t => wrap t name func) raw

/-- Transformer list of a registered name (`self._transformers[name]`; the
catalog invariant guarantees the key is present for registered names). -/
def DataCatalog.transformersOf {α : Type} (c : DataCatalog α) (name : String) :
    List Nat :=
  (pyDictGet c.transformers name).getD []

/-- `DataCatalog.load`: raise `DataSetNotFoundError` for an unregistered
name; otherwise build the transformed load function afresh and invoke it.
(`MemoryDataSet` has versioning disabled, so `get_last_load_version()` is
`None` and no journal entry is emitted.) -/
def DataCatalog.load {α : Type} (c : DataCatalog α) (name : String) :
    LoadOp α := fun st =>
  match pyDictGet c.data_sets name with
  | none => .error (.dataSetNotFound name (notFoundMsg name))
  | some dsId =>
      _get_transformed_dataset_function transformerLoad
        (c.transformersOf name) name (rawLoadOp dsId) st

/-- `DataCatalog.save`: symmetric to `load`. -/
def DataCatalog.save {α : Type} (c : DataCatalog α) (name : String) (data : α) :
    RunState α → Except CatalogError (RunState α) := fun st =>
  match pyDictGet c.data_sets name with
  | none => .error (.dataSetNotFound name (notFoundMsg name))
  | some dsId =>
      _get_transformed_dataset_function transformerSave
        (c.transformersOf name) name (rawSaveOp dsId) data st

/-- `DataCatalog.exists`: raise for an unregistered name, otherwise
delegate to `MemoryDataSet._exists` (`self._data is not _EMPTY`). -/
def DataCatalog.exists {α : Type} (c : DataCatalog α) (name : String)
    (st : RunState α) : Except CatalogError Bool :=
  match pyDictGet c.data_sets name with
  | none => .error (.dataSetNotFound name (notFoundMsg name))
  | some dsId =>
      .ok (match pyDictGet st.heap dsId with
           | some (some _) => true
           | _ => false)

/-- `DataCatalog.release`: raise for an unregistered name, otherwise
delegate to `MemoryDataSet._release` (`self._data = _EMPTY`). -/
def DataCatalog.release {α : Type} (c : DataCatalog α) (name : String)
    (st : RunState α) : Except CatalogError (RunState α) :=
  match pyDictGet c.data_sets name with
  | none => .error (.dataSetNotFound name (notFoundMsg name))
  | some dsId => .ok { st with heap := pyDictSet st.heap dsId none }

/-- `DataCatalog.add`: raise `DataSetAlreadyExistsError` when the name is
registered and `replace` is false (warn-and-continue when it is true); on
success register the dataset, reset its transformer list to a copy of the
current defaults, and rebuild the frozen view from the full registry. -/
def DataCatalog.add {α : Type} (c : DataCatalog α) (data_set_name : String)
    (data_set : Nat) (replace : Bool) : Except CatalogError (DataCatalog α) :=
  if (pyDictGet c.data_sets data_set_name).isSome ∧ replace = false then
    .error (.dataSetAlreadyExists data_set_name
      ("DataSet '" ++ data_set_name ++ "' has already been registered"))
  else
    let ds := pyDictSet c.data_sets data_set_name data_set
    .ok { c with
          data_sets := ds,
          transformers :=
            pyDictSet c.transformers data_set_name c.default_transformers,
          datasets := ds }

/-- `DataCatalog.list`: registered names in registration order. -/
def DataCatalog.list {α : Type} (c : DataCatalog α) : List String :=
  pyDictKeys c.data_sets

/-- `DataCatalog.add_all`: apply `add` entry by entry; the first failure
aborts further additions (entries already added stay committed in the
Python original; here the raised error simply carries no catalog). -/
def DataCatalog.add_all {α : Type} (c : DataCatalog α)
    (data_sets : List (String × Nat)) (replace : Bool) :
    Except CatalogError (DataCatalog α) :=
  match data_sets with
  | [] => .ok c
  | (name, ds) :: rest => do
      let c2 ← c.add name ds replace
      c2.add_all rest replace

/-- A value of the feed dict handed to `add_feed_dict`: either an object
already satisfying `AbstractDataSet` (modelled by its instance id) or a raw
value. -/
inductive FeedInput (α : Type) where
  | dataSetInstance (dsId : Nat)
  | rawValue (v : α)
deriving DecidableEq

/-- Smallest id not used by any heap cell, for allocating a fresh
`MemoryDataSet` instance. -/
def freshId {α : Type} (heap : List (Nat × Option α)) : Nat :=
  (heap.map Prod.fst).foldr (fun a b => max a b + 1) 0

/-- `DataCatalog.add_feed_dict`: for each entry, when the value is already
an `AbstractDataSet` register that very instance, otherwise allocate a new
`MemoryDataSet(data=value)` (whose constructor stores the value via
`_save`) and register it; each registration goes through `add`. -/
def DataCatalog.add_feed_dict {α : Type} (c : DataCatalog α)
    (feed_dict : List (String × FeedInput α)) (replace : Bool)
    (st : RunState α) : Except CatalogError (DataCatalog α × RunState α) :=
  match feed_dict with
  | [] => .ok (c, st)
  | (name, fv) :: rest =>
      match fv with
      | .dataSetInstance dsId => do
          let c2 ← c.add name dsId replace
          c2.add_feed_dict rest replace st
      | .rawValue v => do
          let i := freshId st.heap
          let st2 : RunState α := { st with heap := st.heap ++ [(i, some v)] }
          let c2 ← c.add name i replace
          c2.add_feed_dict rest replace st2

/-- The name-by-name loop at the end of `add_transformer`: for each name,
raise `DataSetNotFoundError` when it is unregistered, otherwise append the
transformer to that name's list. -/
def DataCatalog.addTransformerLoop {α : Type} (c : DataCatalog α) (t : Nat) :
    List String → Except CatalogError (DataCatalog α)
  | [] => .ok c
  | n :: rest =>
      if (pyDictGet c.data_sets n).isSome then
        DataCatalog.addTransformerLoop
          { c with transformers := pyDictAppend c.transformers n t } t rest
      else
        .error (.dataSetNotFound n ("No data set called " ++ n))

/-- `DataCatalog.add_transformer`: with `data_set_names = None`, append the
transformer to the default chain and then to the list of every name
currently keyed in `_transformers`; with explicit names, append only to
those (a single string is wrapped in a list by the source, modelled here by
the caller passing a one-element list).  The `isinstance` type check is
enforced by Lean's types. -/
def DataCatalog.add_transformer {α : Type} (c : DataCatalog α) (t : Nat)
    (data_set_names : Option (List String)) :
    Except CatalogError (DataCatalog α) :=
  match data_set_names with
  | none =>
      let c1 := { c with
                  default_transformers := c.default_transformers ++ [t] }
      c1.addTransformerLoop t (pyDictKeys c1.transformers)
  | some names => c.addTransformerLoop t names

/-- `DataCatalog.__init__` without a feed dict (the callers modelled here —
`from_config` and `shallow_copy` — pass none): copy the incoming dicts,
then `_check_and_normalize_transformers`: transformer keys without a
registered dataset raise `DataSetNotFoundError`; registered names without a
transformer list get a copy of the defaults.  The frozen view is built from
the registry. -/
def DataCatalog.init {α : Type} (data_sets : List (String × Nat))
    (transformers : List (String × List Nat)) (default_transformers : List Nat)
    (journal : Option Nat) : Except CatalogError (DataCatalog α) :=
  let dsKeys := pyDictKeys data_sets
  let excess := (pyDictKeys transformers).filter (fun k => ¬ dsKeys.contains k)
  if excess ≠ [] then
    .error (.dataSetNotFound (String.intercalate ", " excess)
      ("Unexpected transformers for missing data_sets " ++
        String.intercalate ", " excess))
  else
    let missing := dsKeys.filter
      (fun k => (pyDictGet transformers k).isNone)
    .ok { data_sets := data_sets,
          transformers :=
            transformers ++ missing.map (fun k => (k, default_transformers)),
          default_transformers := default_transformers,
          journal := journal,
          datasets := data_sets }

/-- `DataCatalog.shallow_copy`: a new catalog built from the same dataset
instances, transformer lists, defaults and journal reference (the Python
constructor re-wraps the dicts in fresh `dict`s, sharing the instances). -/
def DataCatalog.shallow_copy {α : Type} (c : DataCatalog α) :
    Except CatalogError (DataCatalog α) :=
  DataCatalog.init c.data_sets c.transformers c.default_transformers c.journal

/-- A dataset entry of the configuration handed to `from_config`: whether a
`type` key is present (and its value), an optional `credentials` reference,
plus backend-specific keys that are opaque to the catalog. -/
structure DataSetConfig where
  typeKey : Option String
  credentials : Option String
deriving DecidableEq

/-- `_get_credentials`: look the referenced name up in the credentials
dict; a missing key raises `KeyError` naming the missing credentials. -/
def _get_credentials (credentials_name : String)
    (credentials : List (String × String)) :
    Except CatalogError String :=
  match pyDictGet credentials credentials_name with
  | some c => .ok c
  | none =>
      .error (.keyError credentials_name
        ("Unable to find credentials '" ++ credentials_name ++
          "': check your data catalog and credentials configuration. See " ++
          "https://kedro.readthedocs.io/en/latest/kedro.io.DataCatalog.html " ++
          "for an example."))

/-- The entry loop of `from_config`: walk the configuration in order; an
entry without `type` raises `DataSetError` naming the dataset; a
`credentials` reference is resolved through `_get_credentials` (raising on
a missing key); otherwise `AbstractDataSet.from_config` instantiates the
backend, modelled as allocating the next instance id. -/
def fromConfigLoop (credentials : List (String × String)) (nextId : Nat) :
    List (String × DataSetConfig) →
    Except CatalogError (List (String × Nat))
  | [] => .ok []
  | (ds_name, ds_config) :: rest =>
      if ds_config.typeKey.isNone then
        .error (.dataSetError
          ("`type` is missing from DataSet '" ++ ds_name ++
            "' catalog configuration"))
      else
        match ds_config.credentials with
        | some cname => do
            let _ ← _get_credentials cname credentials
            let tail ← fromConfigLoop credentials (nextId + 1) rest
            .ok ((ds_name, nextId) :: tail)
        | none => do
            let tail ← fromConfigLoop credentials (nextId + 1) rest
            .ok ((ds_name, nextId) :: tail)

/-- `DataCatalog.from_config`: instantiate every configured dataset (the
version bookkeeping — `save_version`, `load_versions`, the stale-key
warning — lives inside the out-of-scope `AbstractDataSet.from_config` and
the non-fatal `warn`), then build the catalog through the constructor. -/
def DataCatalog.from_config {α : Type}
    (catalog : List (String × DataSetConfig))
    (credentials : List (String × String)) (journal : Option Nat) :
    Except CatalogError (DataCatalog α) := do
  let data_sets ← fromConfigLoop credentials 0 catalog
  DataCatalog.init data_sets [] [] journal

/-- `_FrozenDatasets.__setattr__`: every attribute assignment raises
`AttributeError`; the message depends on whether the attribute already
exists.  The unchanged view is returned alongside the error to make "no
mutation happened" explicit. -/
def frozenSetattr (view : List (String × Nat)) (key : String) (_value : Nat) :
    String × List (String × Nat) :=
  let msg := "Operation not allowed! "
  if (pyDictGet view key).isSome then
    (msg ++ "Please change datasets through configuration.", view)
  else
    (msg ++ "Please use DataCatalog.add() instead.", view)

/-- Whether `pat` occurs as a contiguous sublist of `l`. -/
def listContainsSub {β : Type} [BEq β] (pat : List β) : List β → Bool
  | [] => pat.isEmpty
  | b :: rest => pat.isPrefixOf (b :: rest) || listContainsSub pat rest

/-- Whether an error message directs the caller to the catalog's mutation
API, i.e. mentions `DataCatalog.add()`. -/
def mentionsCatalogAdd (msg : String) : Bool :=
  listContainsSub "DataCatalog.add()".data msg.data

/-! ### Dictionary lemmas -/

theorem pyDictGet_set_self {κ ν : Type} [DecidableEq κ]
    (l : List (κ × ν)) (k : κ) (v : ν) :
    pyDictGet (pyDictSet l k v) k = some v := by
  induction l with
  | nil => simp [pyDictGet, pyDictSet]
  | cons p rest ih =>
      obtain ⟨k2, v2⟩ := p
      by_cases h : k2 = k
      · simp [pyDictGet, pyDictSet, h]
      · simp [pyDictGet, pyDictSet, h, ih]

theorem pyDictGet_set_ne {κ ν : Type} [DecidableEq κ]
    (l : List (κ × ν)) (k k' : κ) (v : ν) (h : k' ≠ k) :
    pyDictGet (pyDictSet l k v) k' = pyDictGet l k' := by
  have hk : ¬ k = k' := fun e => h e.symm
  induction l with
  | nil => simp [pyDictGet, pyDictSet, hk]
  | cons p rest ih =>
      obtain ⟨k2, v2⟩ := p
      by_cases h2 : k2 = k
      · subst h2
        simp [pyDictGet, pyDictSet, hk]
      · simp only [pyDictSet, if_neg h2]
        by_cases h3 : k2 = k'
        · simp [pyDictGet, h3]
        · simp [pyDictGet, h3, ih]

theorem pyDictKeys_set_of_mem {κ ν : Type} [DecidableEq κ]
    (l : List (κ × ν)) (k : κ) (v : ν) (h : (pyDictGet l k).isSome) :
    pyDictKeys (pyDictSet l k v) = pyDictKeys l := by
  induction l with
  | nil => simp [pyDictGet] at h
  | cons p rest ih =>
      obtain ⟨k2, v2⟩ := p
      by_cases h2 : k2 = k
      · simp [pyDictKeys, pyDictSet, h2]
      · simp only [pyDictGet, if_neg h2] at h
        simp [pyDictKeys, pyDictSet, h2, ih h] at *
        exact ih h

theorem pyDictGet_append_fresh {κ ν : Type} [DecidableEq κ]
    (l : List (κ × ν)) (k : κ) (v : ν) (h : pyDictGet l k = none) :
    pyDictGet (l ++ [(k, v)]) k = some v := by
  induction l with
  | nil => simp [pyDictGet]
  | cons p rest ih =>
      obtain ⟨k2, v2⟩ := p
      by_cases h2 : k2 = k
      · simp [pyDictGet, h2] at h
      · simp only [pyDictGet, if_neg h2] at h ⊢
        simp [List.cons_append, ih h]

/-! ### Composition lemmas for the transformer chain -/

theorem gtdf_nil {Op : Type} (wrap : Nat → String → Op → Op)
    (name : String) (raw : Op) :
    _get_transformed_dataset_function wrap [] name raw = raw := rfl

theorem gtdf_cons {Op : Type} (wrap : Nat → String → Op → Op)
    (t : Nat) (ts : List Nat) (name : String) (raw : Op) :
    _get_transformed_dataset_function wrap (t :: ts) name raw =
      wrap t name (_get_transformed_dataset_function wrap ts name raw) := by
  simp [_get_transformed_dataset_function, List.reverse_cons, List.foldl_append]

theorem loadChain_eq {α : Type} (ts : List Nat) (name : String) (dsId : Nat)
    (st : RunState α) :
    _get_transformed_dataset_function transformerLoad ts name
        (rawLoadOp dsId) st =
      rawLoadOp dsId { st with trace := st.trace ++ ts.map Ev.tcall } := by
  induction ts generalizing st with
  | nil => simp [gtdf_nil]
  | cons t rest ih =>
      rw [gtdf_cons]
      show _get_transformed_dataset_function transformerLoad rest name
          (rawLoadOp dsId) { st with trace := st.trace ++ [Ev.tcall t] } = _
      rw [ih]
      simp

theorem saveChain_eq {α : Type} (ts : List Nat) (name : String) (dsId : Nat)
    (data : α) (st : RunState α) :
    _get_transformed_dataset_function transformerSave ts name
        (rawSaveOp dsId) data st =
      rawSaveOp dsId data { st with trace := st.trace ++ ts.map Ev.tcall } := by
  induction ts generalizing st with
  | nil => simp [gtdf_nil]
  | cons t rest ih =>
      rw [gtdf_cons]
      show _get_transformed_dataset_function transformerSave rest name
          (rawSaveOp dsId) data { st with trace := st.trace ++ [Ev.tcall t] } = _
      rw [ih]
      simp

/-! ### Claim theorems -/

/-- C1: for a registered dataset whose transformer list is `ts` (length k),
the callable that `load`/`save` invokes is the fold of
`_get_transformed_dataset_function`: the run trace shows the k transformer
invocations in list order — the first-added transformer outermost, hence
recorded first — followed by exactly one raw dataset operation, and the
value flows through unchanged.  The equation holds for every catalog state
and uses `transformersOf` at call time: the composition is recomputed on
each call, never cached. -/
theorem load_save_fold_transformers {α : Type} (c : DataCatalog α)
    (name : String) (dsId : Nat) (ts : List Nat) (v : α) (st : RunState α)
    (hreg : pyDictGet c.data_sets name = some dsId)
    (hts : c.transformersOf name = ts)
    (hheap : pyDictGet st.heap dsId = some (some v)) :
    c.load name st =
      .ok ({ st with trace := st.trace ++ ts.map Ev.tcall ++ [Ev.rawLoad] }, v)
    ∧ ∀ data : α, c.save name data st =
      .ok { st with
            heap := pyDictSet st.heap dsId (some data),
            trace := st.trace ++ ts.map Ev.tcall ++ [Ev.rawSave] } := by
  constructor
  · simp only [DataCatalog.load, hreg, hts, loadChain_eq, rawLoadOp]
    simp [hheap]
  · intro data
    simp only [DataCatalog.save, hreg, hts, saveChain_eq, rawSaveOp]

/-- Example catalog: one dataset `cars` (instance id 0) with the two
tracing transformers 10 and 20, in that order. -/
def exCatalog : DataCatalog Nat :=
  { data_sets := [("cars", 0)],
    transformers := [("cars", [10, 20])],
    default_transformers := [],
    journal := none,
    datasets := [("cars", 0)] }

/-- Witness for C1 at the concrete catalog `exCatalog`: transformer 10 was
added first and fires outermost, 20 fires next, then the raw operation. -/
theorem load_save_fold_transformers_witness :
    (pyDictGet exCatalog.data_sets "cars" = some 0
      ∧ exCatalog.transformersOf "cars" = [10, 20]
      ∧ pyDictGet (RunState.mk [(0, some 7)] []).heap 0 = some (some 7))
    ∧ (exCatalog.load "cars" (RunState.mk [(0, some 7)] []) =
        .ok (RunState.mk [(0, some 7)]
          [Ev.tcall 10, Ev.tcall 20, Ev.rawLoad], 7)
      ∧ ∀ data : Nat,
          exCatalog.save "cars" data (RunState.mk [(0, some 7)] []) =
          .ok (RunState.mk [(0, some data)]
            [Ev.tcall 10, Ev.tcall 20, Ev.rawSave])) :=
  ⟨⟨by decide, by decide, by decide⟩, by
    have h := load_save_fold_transformers (α := Nat) exCatalog "cars" 0
      [10, 20] 7 (RunState.mk [(0, some 7)] [])
      (by decide) (by decide) (by decide)
    exact ⟨h.1, fun data => by rw [h.2 data]; simp [pyDictSet]⟩⟩

/-- C2: `load`, `save`, `exists` and `release` on an unregistered name all
raise `DataSetNotFoundError` naming that dataset.  Each operation returns
only the error — no successor state is produced, so the catalog and run
state are unchanged. -/
theorem unregistered_name_raises {α : Type} (c : DataCatalog α)
    (name : String) (st : RunState α)
    (h : pyDictGet c.data_sets name = none) :
    c.load name st = .error (.dataSetNotFound name (notFoundMsg name))
    ∧ (∀ data : α, c.save name data st =
        .error (.dataSetNotFound name (notFoundMsg name)))
    ∧ c.exists name st = .error (.dataSetNotFound name (notFoundMsg name))
    ∧ c.release name st = .error (.dataSetNotFound name (notFoundMsg name)) := by
  refine ⟨?_, fun data => ?_, ?_, ?_⟩ <;>
    simp [DataCatalog.load, DataCatalog.save, DataCatalog.exists,
      DataCatalog.release, h]

/-- Witness for C2: the name `boats` is not registered in `exCatalog`. -/
theorem unregistered_name_raises_witness :
    pyDictGet exCatalog.data_sets "boats" = none
    ∧ (exCatalog.load "boats" (RunState.mk [] []) =
        .error (.dataSetNotFound "boats" (notFoundMsg "boats"))
      ∧ (∀ data : Nat, exCatalog.save "boats" data (RunState.mk [] []) =
          .error (.dataSetNotFound "boats" (notFoundMsg "boats")))
      ∧ exCatalog.exists "boats" (RunState.mk [] []) =
          .error (.dataSetNotFound "boats" (notFoundMsg "boats"))
      ∧ exCatalog.release "boats" (RunState.mk [] []) =
          .error (.dataSetNotFound "boats" (notFoundMsg "boats"))) :=
  ⟨by decide,
    unregistered_name_raises exCatalog "boats" (RunState.mk [] []) (by decide)⟩

/-- C3: with `n` registered, `add n d2 false` raises
`DataSetAlreadyExistsError` and returns no catalog — the registry,
transformer map and frozen view of the original are untouched (no partial
mutation).  `add n d2 true` succeeds (after a warning) and registers `d2`,
so every subsequent `load n` dispatches to the raw operation of instance
`d2` (wrapped by the defaults that `add` installs for `n`). -/
theorem add_existing_name {α : Type} (c : DataCatalog α) (n : String)
    (d1 d2 : Nat) (hreg : pyDictGet c.data_sets n = some d1) :
    c.add n d2 false =
      .error (.dataSetAlreadyExists n
        ("DataSet '" ++ n ++ "' has already been registered"))
    ∧ ∃ c', c.add n d2 true = .ok c'
        ∧ pyDictGet c'.data_sets n = some d2
        ∧ ∀ st : RunState α, c'.load n st =
            rawLoadOp d2
              { st with trace :=
                  st.trace ++ c.default_transformers.map Ev.tcall } := by
  have hadd : c.add n d2 true =
      .ok { c with
            data_sets := pyDictSet c.data_sets n d2,
            transformers := pyDictSet c.transformers n c.default_transformers,
            datasets := pyDictSet c.data_sets n d2 } := by
    simp [DataCatalog.add, hreg]
  refine ⟨by simp [DataCatalog.add, hreg], ?_⟩
  refine ⟨_, hadd, ?_, ?_⟩
  · exact pyDictGet_set_self c.data_sets n d2
  · intro st
    simp only [DataCatalog.load, pyDictGet_set_self,
      DataCatalog.transformersOf, Option.getD_some, loadChain_eq]

/-- Witness for C3 at `exCatalog`: re-adding `cars` without `replace`
fails; with `replace` the new instance 5 is registered and `load`
dispatches to it. -/
theorem add_existing_name_witness :
    pyDictGet exCatalog.data_sets "cars" = some 0
    ∧ (exCatalog.add "cars" 5 false =
        .error (.dataSetAlreadyExists "cars"
          ("DataSet '" ++ "cars" ++ "' has already been registered"))
      ∧ ∃ c', exCatalog.add "cars" 5 true = .ok c'
          ∧ pyDictGet c'.data_sets "cars" = some 5
          ∧ ∀ st : RunState Nat, c'.load "cars" st =
              rawLoadOp 5
                { st with trace :=
                    st.trace ++ exCatalog.default_transformers.map Ev.tcall }) :=
  ⟨by decide, add_existing_name exCatalog "cars" 0 5 (by decide)⟩

/-- C4: on a registered in-memory dataset, `save n v` succeeds and a
subsequent `load n` returns exactly `v` (deep copies of pure values are
identities, so the round-trip is equality). -/
theorem save_load_roundtrip {α : Type} (c : DataCatalog α) (n : String)
    (i : Nat) (v : α) (st : RunState α)
    (hreg : pyDictGet c.data_sets n = some i) :
    ∃ st', c.save n v st = .ok st'
      ∧ ∃ st'', c.load n st' = .ok (st'', v) := by
  have hsave : c.save n v st =
      .ok { st with
            heap := pyDictSet st.heap i (some v),
            trace := st.trace ++ (c.transformersOf n).map Ev.tcall
              ++ [Ev.rawSave] } := by
    simp only [DataCatalog.save, hreg, saveChain_eq, rawSaveOp]
  refine ⟨_, hsave, ?_⟩
  refine ⟨{ heap := pyDictSet st.heap i (some v),
            trace := (st.trace ++ (c.transformersOf n).map Ev.tcall
                ++ [Ev.rawSave]) ++ (c.transformersOf n).map Ev.tcall
              ++ [Ev.rawLoad] }, ?_⟩
  simp only [DataCatalog.load, hreg, loadChain_eq, rawLoadOp]
  simp [pyDictGet_set_self]

/-- Witness for C4: saving 42 to `cars` and loading it back. -/
theorem save_load_roundtrip_witness :
    pyDictGet exCatalog.data_sets "cars" = some 0
    ∧ ∃ st', exCatalog.save "cars" 42 (RunState.mk [(0, some 7)] []) = .ok st'
        ∧ ∃ st'', exCatalog.load "cars" st' = .ok (st'', 42) :=
  ⟨by decide,
    save_load_roundtrip exCatalog "cars" 0 42 (RunState.mk [(0, some 7)] [])
      (by decide)⟩

/-- C10: replacing a registered name with `replace = true` leaves `list()`
unchanged: Python dict assignment to an existing key keeps its position, so
the names and their order are identical before and after. -/
theorem add_replace_preserves_listing {α : Type} (c : DataCatalog α)
    (n : String) (d1 d2 : Nat) (hreg : pyDictGet c.data_sets n = some d1) :
    ∃ c', c.add n d2 true = .ok c' ∧ c'.list = c.list := by
  have hadd : c.add n d2 true =
      .ok { c with
            data_sets := pyDictSet c.data_sets n d2,
            transformers := pyDictSet c.transformers n c.default_transformers,
            datasets := pyDictSet c.data_sets n d2 } := by
    simp [DataCatalog.add, hreg]
  refine ⟨_, hadd, ?_⟩
  show pyDictKeys (pyDictSet c.data_sets n d2) = pyDictKeys c.data_sets
  exact pyDictKeys_set_of_mem c.data_sets n d2 (by simp [hreg])

/-- Witness for C10: replacing `cars` in a two-dataset catalog keeps the
listing `[cars, boats]` with `cars` still first. -/
theorem add_replace_preserves_listing_witness :
    pyDictGet (DataCatalog.mk [("cars", 0), ("boats", 1)]
        [("cars", []), ("boats", [])] [] none
        [("cars", 0), ("boats", 1)] : DataCatalog Nat).data_sets "cars" = some 0
    ∧ ∃ c', (DataCatalog.mk [("cars", 0), ("boats", 1)]
          [("cars", []), ("boats", [])] [] none
          [("cars", 0), ("boats", 1)] : DataCatalog Nat).add "cars" 5 true = .ok c'
        ∧ c'.list = (DataCatalog.mk [("cars", 0), ("boats", 1)]
            [("cars", []), ("boats", [])] [] none
            [("cars", 0), ("boats", 1)] : DataCatalog Nat).list :=
  ⟨by decide,
    add_replace_preserves_listing
      (DataCatalog.mk [("cars", 0), ("boats", 1)]
        [("cars", []), ("boats", [])] [] none
        [("cars", 0), ("boats", 1)]) "cars" 0 5 (by decide)⟩

/-! ### Lemmas about transformer registration -/

theorem pyDictAppend_get_self {κ ν : Type} [DecidableEq κ]
    (l : List (κ × List ν)) (k : κ) (x : ν) :
    pyDictGet (pyDictAppend l k x) k =
      (pyDictGet l k).map (fun v => v ++ [x]) := by
  induction l with
  | nil => simp [pyDictGet, pyDictAppend]
  | cons p rest ih =>
      obtain ⟨k2, v2⟩ := p
      by_cases h : k2 = k
      · simp [pyDictGet, pyDictAppend, h]
      · simp [pyDictGet, pyDictAppend, h, ih]

theorem pyDictAppend_get_ne {κ ν : Type} [DecidableEq κ]
    (l : List (κ × List ν)) (k k' : κ) (x : ν) (h : k' ≠ k) :
    pyDictGet (pyDictAppend l k x) k' = pyDictGet l k' := by
  induction l with
  | nil => simp [pyDictGet, pyDictAppend]
  | cons p rest ih =>
      obtain ⟨k2, v2⟩ := p
      by_cases h2 : k2 = k
      · subst h2
        have h4 : ¬ k2 = k' := fun e => h e.symm
        simp [pyDictGet, pyDictAppend, h4, ih]
      · by_cases h3 : k2 = k'
        · subst h3
          simp [pyDictGet, pyDictAppend, h2]
        · simp [pyDictGet, pyDictAppend, h2, h3, ih]

theorem addTransformerLoop_ok {α : Type} (c : DataCatalog α) (t : Nat)
    (names : List String) (hnd : names.Nodup)
    (hmem : ∀ n ∈ names, (pyDictGet c.data_sets n).isSome) :
    ∃ c', c.addTransformerLoop t names = .ok c'
      ∧ c'.data_sets = c.data_sets
      ∧ c'.default_transformers = c.default_transformers
      ∧ c'.journal = c.journal
      ∧ ∀ k, pyDictGet c'.transformers k =
          if k ∈ names then
            (pyDictGet c.transformers k).map (fun l => l ++ [t])
          else pyDictGet c.transformers k := by
  induction names generalizing c with
  | nil =>
      exact ⟨c, rfl, rfl, rfl, rfl, fun k => by simp⟩
  | cons n rest ih =>
      have hn : (pyDictGet c.data_sets n).isSome := hmem n (by simp)
      have hrest : ∀ m ∈ rest, (pyDictGet
          ({ c with transformers := pyDictAppend c.transformers n t } :
            DataCatalog α).data_sets m).isSome :=
        fun m hm => hmem m (by simp [hm])
      obtain ⟨c', hc', hds, hdt, hj, hget⟩ :=
        ih { c with transformers := pyDictAppend c.transformers n t }
          (List.Nodup.of_cons hnd) hrest
      refine ⟨c', ?_, hds, hdt, hj, ?_⟩
      · simp only [DataCatalog.addTransformerLoop, hn, if_true]
        exact hc'
      · intro k
        have hnotin : n ∉ rest := (List.nodup_cons.mp hnd).1
        by_cases hk : k = n
        · subst hk
          rw [hget k]
          simp [hnotin, pyDictAppend_get_self]
        · rw [hget k]
          by_cases hkr : k ∈ rest
          · simp [hkr, pyDictAppend_get_ne c.transformers n k t hk]
          · simp [hkr, hk, pyDictAppend_get_ne c.transformers n k t hk]

theorem addTransformerLoop_frame {α : Type} (c c' : DataCatalog α) (t : Nat)
    (names : List String) (h : c.addTransformerLoop t names = .ok c')
    (k : String) (hk : k ∉ names) :
    pyDictGet c'.transformers k = pyDictGet c.transformers k := by
  induction names generalizing c with
  | nil =>
      simp only [DataCatalog.addTransformerLoop] at h
      cases h
      rfl
  | cons n rest ih =>
      simp only [DataCatalog.addTransformerLoop] at h
      by_cases hn : (pyDictGet c.data_sets n).isSome
      · rw [if_pos hn] at h
        have hk2 : k ∉ rest := fun hr => hk (by simp [hr])
        have hkn : k ≠ n := fun e => hk (by simp [e])
        rw [ih _ h hk2]
        exact pyDictAppend_get_ne c.transformers n k t hkn
      · rw [if_neg hn] at h
        cases h

theorem pyDictGet_mem_keys {κ ν : Type} [DecidableEq κ]
    (l : List (κ × ν)) (k : κ) (h : (pyDictGet l k).isSome) :
    k ∈ pyDictKeys l := by
  induction l with
  | nil => simp [pyDictGet] at h
  | cons p rest ih =>
      obtain ⟨k2, v2⟩ := p
      by_cases h2 : k2 = k
      · simp [pyDictKeys, h2]
      · simp only [pyDictGet, if_neg h2] at h
        simp [pyDictKeys] at *
        exact Or.inr (ih h)

/-- C6: `add_transformer t None` appends `t` to the default chain *and* to
the chain of every dataset registered at call time; a dataset added
afterwards starts with a copy of the new defaults (including `t`); and a
later explicit `add_transformer` call that does not target that dataset
leaves its chain untouched. -/
theorem add_transformer_default_chain {α : Type} (c : DataCatalog α) (t : Nat)
    (hkeys : ∀ n ∈ pyDictKeys c.transformers, (pyDictGet c.data_sets n).isSome)
    (hnd : (pyDictKeys c.transformers).Nodup) :
    ∃ c1, c.add_transformer t none = .ok c1
      ∧ c1.default_transformers = c.default_transformers ++ [t]
      ∧ (∀ n ts, pyDictGet c.transformers n = some ts →
          pyDictGet c1.transformers n = some (ts ++ [t]))
      ∧ (∀ m d c2, pyDictGet c1.data_sets m = none →
          c1.add m d false = .ok c2 →
          pyDictGet c2.transformers m =
            some (c.default_transformers ++ [t])
          ∧ ∀ t2 names c3, c2.add_transformer t2 (some names) = .ok c3 →
              m ∉ names →
              pyDictGet c3.transformers m = pyDictGet c2.transformers m) := by
  obtain ⟨c1, hloop, hds, hdt, hj, hget⟩ :=
    addTransformerLoop_ok
      ({ c with default_transformers := c.default_transformers ++ [t] } :
        DataCatalog α) t (pyDictKeys c.transformers) hnd hkeys
  refine ⟨c1, ?_, by rw [hdt], ?_, ?_⟩
  · simp only [DataCatalog.add_transformer]
    exact hloop
  · intro n ts hts
    have hmem : n ∈ pyDictKeys c.transformers :=
      pyDictGet_mem_keys c.transformers n (by simp [hts])
    rw [hget n, if_pos hmem]
    simp [hts]
  · intro m d c2 hm hadd
    have hm1 : pyDictGet c.data_sets m = none := by rw [← hds]; exact hm
    have hc2 : c2 = { c1 with
        data_sets := pyDictSet c.data_sets m d,
        transformers := pyDictSet c1.transformers m c1.default_transformers,
        datasets := pyDictSet c.data_sets m d } := by
      simp [DataCatalog.add, hds, hm1] at hadd
      exact hadd.symm
    constructor
    · rw [hc2]
      show pyDictGet (pyDictSet c1.transformers m c1.default_transformers) m
        = some (c.default_transformers ++ [t])
      rw [pyDictGet_set_self, hdt]
    · intro t2 names c3 hadd2 hnot
      simp only [DataCatalog.add_transformer] at hadd2
      exact addTransformerLoop_frame c2 c3 t2 names hadd2 m hnot

/-- Witness for C6: catalog with only `cars`; transformer 9 is added to the
defaults and to `cars`; dataset `boats` added afterwards starts with
chain `[9]`; a later targeted `add_transformer 7 ["cars"]` leaves
`boats` untouched. -/
theorem add_transformer_default_chain_witness :
    ((∀ n ∈ pyDictKeys (DataCatalog.mk [("cars", 0)] [("cars", [])] [] none
          [("cars", 0)] : DataCatalog Nat).transformers,
        (pyDictGet (DataCatalog.mk [("cars", 0)] [("cars", [])] [] none
          [("cars", 0)] : DataCatalog Nat).data_sets n).isSome)
      ∧ (pyDictKeys (DataCatalog.mk [("cars", 0)] [("cars", [])] [] none
          [("cars", 0)] : DataCatalog Nat).transformers).Nodup)
    ∧ ∃ c1, (DataCatalog.mk [("cars", 0)] [("cars", [])] [] none
          [("cars", 0)] : DataCatalog Nat).add_transformer 9 none = .ok c1
        ∧ c1.default_transformers = [] ++ [9]
        ∧ (∀ n ts, pyDictGet [("cars", ([] : List Nat))] n = some ts →
            pyDictGet c1.transformers n = some (ts ++ [9]))
        ∧ (∀ m d c2, pyDictGet c1.data_sets m = none →
            c1.add m d false = .ok c2 →
            pyDictGet c2.transformers m = some ([] ++ [9])
            ∧ ∀ t2 names c3, c2.add_transformer t2 (some names) = .ok c3 →
                m ∉ names →
                pyDictGet c3.transformers m = pyDictGet c2.transformers m) :=
  ⟨⟨by decide, by decide⟩,
    add_transformer_default_chain
      (DataCatalog.mk [("cars", 0)] [("cars", [])] [] none [("cars", 0)])
      9 (by decide) (by decide)⟩

/-! ### Lemmas about the heap and feed-dict registration -/

theorem foldr_fresh_bound (l : List Nat) :
    ∀ a ∈ l, a < l.foldr (fun a b => max a b + 1) 0 := by
  induction l with
  | nil => simp
  | cons x rest ih =>
      intro a ha
      rcases List.mem_cons.mp ha with h | h
      · subst h
        simp only [List.foldr_cons]
        omega
      · have := ih a h
        simp only [List.foldr_cons]
        omega

theorem pyDictGet_none_of_not_mem {κ ν : Type} [DecidableEq κ]
    (l : List (κ × ν)) (k : κ) (h : k ∉ pyDictKeys l) :
    pyDictGet l k = none := by
  induction l with
  | nil => rfl
  | cons p rest ih =>
      obtain ⟨k2, v2⟩ := p
      simp [pyDictKeys] at h
      have hne : ¬ k2 = k := fun e => h.1 e.symm
      simp [pyDictGet, hne, ih (by simp [pyDictKeys, h.2])]

theorem freshId_unused {α : Type} (heap : List (Nat × Option α)) :
    pyDictGet heap (freshId heap) = none := by
  apply pyDictGet_none_of_not_mem
  intro hmem
  exact absurd rfl
    (Nat.ne_of_lt (foldr_fresh_bound (heap.map Prod.fst) _ hmem))

theorem pyDictGet_append_isSome {κ ν : Type} [DecidableEq κ]
    (l l2 : List (κ × ν)) (k : κ) (h : (pyDictGet l k).isSome) :
    pyDictGet (l ++ l2) k = pyDictGet l k := by
  induction l with
  | nil => simp [pyDictGet] at h
  | cons p rest ih =>
      obtain ⟨k2, v2⟩ := p
      by_cases h2 : k2 = k
      · simp [pyDictGet, h2]
      · simp only [pyDictGet, if_neg h2] at h ⊢
        exact ih h

theorem exceptBind_ok {ε β γ : Type} (a : β) (f : β → Except ε γ) :
    (Except.ok a >>= f) = f a := rfl

theorem exceptBind_error {ε β γ : Type} (e : ε) (f : β → Except ε γ) :
    ((Except.error e : Except ε β) >>= f) = Except.error e := rfl

theorem add_feed_dict_frame {α : Type} (feed : List (String × FeedInput α))
    (replace : Bool) :
    ∀ (c c' : DataCatalog α) (st st' : RunState α),
    c.add_feed_dict feed replace st = .ok (c', st') →
    (∀ k, k ∉ pyDictKeys feed →
      pyDictGet c'.data_sets k = pyDictGet c.data_sets k)
    ∧ (∀ j, (pyDictGet st.heap j).isSome →
        pyDictGet st'.heap j = pyDictGet st.heap j) := by
  induction feed with
  | nil =>
      intro c c' st st' h
      simp only [DataCatalog.add_feed_dict] at h
      cases h
      exact ⟨fun k _ => rfl, fun j _ => rfl⟩
  | cons p rest ih =>
      obtain ⟨m, g⟩ := p
      intro c c' st st' h
      cases g with
      | dataSetInstance i =>
          cases hadd : c.add m i replace with
          | error e =>
              simp [DataCatalog.add_feed_dict, hadd, exceptBind_error] at h
          | ok c2 =>
              simp only [DataCatalog.add_feed_dict, hadd,
                exceptBind_ok] at h
              obtain ⟨h1, h2⟩ := ih c2 c' st st' h
              have hc2 : c2.data_sets = pyDictSet c.data_sets m i := by
                simp only [DataCatalog.add] at hadd
                split at hadd
                · cases hadd
                · cases hadd
                  rfl
              refine ⟨fun k hk => ?_, h2⟩
              have hkm : k ≠ m := fun e => hk (by simp [pyDictKeys, e])
              have hkr : k ∉ pyDictKeys rest :=
                fun hr => hk (by simp [pyDictKeys] at *; exact Or.inr hr)
              rw [h1 k hkr, hc2, pyDictGet_set_ne c.data_sets m k i hkm]
      | rawValue v =>
          cases hadd : c.add m (freshId st.heap) replace with
          | error e =>
              simp [DataCatalog.add_feed_dict, hadd, exceptBind_error] at h
          | ok c2 =>
              simp only [DataCatalog.add_feed_dict, hadd,
                exceptBind_ok] at h
              obtain ⟨h1, h2⟩ := ih c2 c' _ st' h
              have hc2 : c2.data_sets =
                  pyDictSet c.data_sets m (freshId st.heap) := by
                simp only [DataCatalog.add] at hadd
                split at hadd
                · cases hadd
                · cases hadd
                  rfl
              constructor
              · intro k hk
                have hkm : k ≠ m := fun e => hk (by simp [pyDictKeys, e])
                have hkr : k ∉ pyDictKeys rest :=
                  fun hr => hk (by simp [pyDictKeys] at *; exact Or.inr hr)
                rw [h1 k hkr, hc2, pyDictGet_set_ne c.data_sets m k _ hkm]
              · intro j hj
                have hpres : pyDictGet
                    (st.heap ++ [(freshId st.heap, some v)]) j =
                    pyDictGet st.heap j :=
                  pyDictGet_append_isSome st.heap _ j hj
                have hj2 : (pyDictGet
                    (st.heap ++ [(freshId st.heap, some v)]) j).isSome := by
                  rw [hpres]; exact hj
                have := h2 j hj2
                rw [this, hpres]

theorem load_of_heap_value {α : Type} (c : DataCatalog α) (n : String)
    (j : Nat) (v : α) (st : RunState α)
    (hreg : pyDictGet c.data_sets n = some j)
    (hheap : pyDictGet st.heap j = some (some v)) :
    ∃ st2, c.load n st = .ok (st2, v) := by
  refine ⟨{ st with trace := st.trace ++ (c.transformersOf n).map Ev.tcall
      ++ [Ev.rawLoad] }, ?_⟩
  simp only [DataCatalog.load, hreg, loadChain_eq, rawLoadOp]
  simp [hheap]

/-- C5: for every entry of the feed dict (a mapping, hence distinct keys),
a value that is already a dataset instance is registered under its name
*as-is* (the very same instance id, not wrapped), while a raw value is
wrapped in a freshly allocated `MemoryDataSet` holding that value — so a
subsequent `load` of that name returns the raw value unchanged. -/
theorem add_feed_dict_entries {α : Type}
    (feed : List (String × FeedInput α)) (replace : Bool) :
    ∀ (c c' : DataCatalog α) (st st' : RunState α),
    c.add_feed_dict feed replace st = .ok (c', st') →
    (pyDictKeys feed).Nodup →
    ∀ n fv, (n, fv) ∈ feed →
      (∀ i, fv = FeedInput.dataSetInstance i →
        pyDictGet c'.data_sets n = some i)
      ∧ (∀ v, fv = FeedInput.rawValue v →
          ∃ j, pyDictGet c'.data_sets n = some j
            ∧ pyDictGet st'.heap j = some (some v)
            ∧ ∃ st2, c'.load n st' = .ok (st2, v)) := by
  induction feed with
  | nil =>
      intro c c' st st' _ _ n fv hmem
      simp at hmem
  | cons p rest ih =>
      obtain ⟨m, g⟩ := p
      intro c c' st st' h hnd n fv hmem
      have hmrest : m ∉ pyDictKeys rest := by
        have := (List.nodup_cons.mp hnd).1
        simpa [pyDictKeys] using this
      have hndrest : (pyDictKeys rest).Nodup := (List.nodup_cons.mp hnd).2
      cases g with
      | dataSetInstance i =>
          cases hadd : c.add m i replace with
          | error e =>
              simp [DataCatalog.add_feed_dict, hadd, exceptBind_error] at h
          | ok c2 =>
              simp only [DataCatalog.add_feed_dict, hadd, exceptBind_ok] at h
              rcases List.mem_cons.mp hmem with hhd | htl
              · injection hhd with hn hg
                have hc2 : pyDictGet c2.data_sets m = some i := by
                  simp only [DataCatalog.add] at hadd
                  split at hadd
                  · cases hadd
                  · cases hadd
                    exact pyDictGet_set_self c.data_sets m i
                have hpres :=
                  (add_feed_dict_frame rest replace c2 c' st st' h).1 m hmrest
                refine ⟨fun i' hi' => ?_, fun v hv => ?_⟩
                · rw [hg] at hi'
                  injection hi' with hii
                  subst hii
                  rw [hn, hpres, hc2]
                · rw [hg] at hv
                  cases hv
              · exact ih c2 c' st st' h hndrest n fv htl
      | rawValue v =>
          cases hadd : c.add m (freshId st.heap) replace with
          | error e =>
              simp [DataCatalog.add_feed_dict, hadd, exceptBind_error] at h
          | ok c2 =>
              simp only [DataCatalog.add_feed_dict, hadd, exceptBind_ok] at h
              rcases List.mem_cons.mp hmem with hhd | htl
              · injection hhd with hn hg
                have hc2 : pyDictGet c2.data_sets m = some (freshId st.heap) := by
                  simp only [DataCatalog.add] at hadd
                  split at hadd
                  · cases hadd
                  · cases hadd
                    exact pyDictGet_set_self c.data_sets m _
                obtain ⟨hds, hheap⟩ :=
                  add_feed_dict_frame rest replace c2 c' _ st' h
                have hfresh : pyDictGet
                    (st.heap ++ [(freshId st.heap, some v)])
                    (freshId st.heap) = some (some v) :=
                  pyDictGet_append_fresh st.heap _ _ (freshId_unused st.heap)
                have hheap2 : pyDictGet st'.heap (freshId st.heap) =
                    some (some v) := by
                  rw [hheap (freshId st.heap) (by simp [hfresh])]
                  exact hfresh
                have hreg2 : pyDictGet c'.data_sets m =
                    some (freshId st.heap) := by
                  rw [hds m hmrest, hc2]
                refine ⟨fun i' hi' => ?_, fun v' hv' => ?_⟩
                · rw [hg] at hi'
                  cases hi'
                · rw [hg] at hv'
                  injection hv' with hvv
                  subst hvv
                  rw [hn]
                  exact ⟨freshId st.heap, hreg2, hheap2,
                    load_of_heap_value c' m (freshId st.heap) v st' hreg2 hheap2⟩
              · exact ih c2 c' _ st' h hndrest n fv htl

/-- Witness for C5: feeding `x ↦ 5` (raw) and `d ↦ instance 3` into an
empty catalog: `x` gets a fresh `MemoryDataSet` (id 0) holding 5 and
`load x` returns 5; `d` is registered as the very instance 3. -/
theorem add_feed_dict_entries_witness :
    ((DataCatalog.mk [] [] [] none [] : DataCatalog Nat).add_feed_dict
        [("x", FeedInput.rawValue 5), ("d", FeedInput.dataSetInstance 3)] false
        (RunState.mk [] []) =
      .ok (DataCatalog.mk [("x", 0), ("d", 3)] [("x", []), ("d", [])] []
            none [("x", 0), ("d", 3)],
          RunState.mk [(0, some 5)] [])
      ∧ (pyDictKeys [("x", FeedInput.rawValue (5 : Nat)),
          ("d", FeedInput.dataSetInstance 3)]).Nodup)
    ∧ ∀ n fv, (n, fv) ∈ [("x", FeedInput.rawValue (5 : Nat)),
        ("d", FeedInput.dataSetInstance 3)] →
      (∀ i, fv = FeedInput.dataSetInstance i →
        pyDictGet [("x", 0), ("d", 3)] n = some i)
      ∧ (∀ v, fv = FeedInput.rawValue v →
          ∃ j, pyDictGet [("x", 0), ("d", 3)] n = some j
            ∧ pyDictGet [(0, some (5 : Nat))] j = some (some v)
            ∧ ∃ st2, (DataCatalog.mk [("x", 0), ("d", 3)]
                [("x", []), ("d", [])] [] none
                [("x", 0), ("d", 3)] : DataCatalog Nat).load n
                  (RunState.mk [(0, some 5)] []) = .ok (st2, v)) :=
  ⟨⟨by rfl, by decide⟩,
    add_feed_dict_entries
      [("x", FeedInput.rawValue 5), ("d", FeedInput.dataSetInstance 3)] false
      (DataCatalog.mk [] [] [] none [])
      (DataCatalog.mk [("x", 0), ("d", 3)] [("x", []), ("d", [])] [] none
        [("x", 0), ("d", 3)])
      (RunState.mk [] []) (RunState.mk [(0, some 5)] [])
      (by rfl) (by decide)⟩

/-- A configuration entry passes the catalog-level checks: it has a `type`
key, and its `credentials` reference (if any) resolves. -/
def entryOk (credentials : List (String × String))
    (e : String × DataSetConfig) : Bool :=
  e.2.typeKey.isSome &&
    (match e.2.credentials with
     | none => true
     | some cn => (pyDictGet credentials cn).isSome)

theorem fromConfigLoop_error_frame (credentials : List (String × String))
    (pre : List (String × DataSetConfig)) (err : CatalogError)
    (more : List (String × DataSetConfig))
    (hpre : ∀ e ∈ pre, entryOk credentials e = true)
    (hmore : ∀ k, fromConfigLoop credentials k more = .error err) :
    ∀ k, fromConfigLoop credentials k (pre ++ more) = .error err := by
  induction pre with
  | nil => intro k; exact hmore k
  | cons p pre2 ih =>
      intro k
      obtain ⟨nm, cf⟩ := p
      have hok := hpre (nm, cf) (by simp)
      simp only [entryOk, Bool.and_eq_true] at hok
      have htail := ih (fun e he => hpre e (by simp [he])) (k + 1)
      have htype : cf.typeKey.isNone = false := by
        cases hk : cf.typeKey
        · rw [hk] at hok; simp at hok
        · simp [hk]
      simp only [List.cons_append, fromConfigLoop, htype, Bool.false_eq_true,
        if_false]
      cases hcred : cf.credentials with
      | none => simp [htail, exceptBind_error]
      | some cn =>
          rw [hcred] at hok
          have hok2 : (pyDictGet credentials cn).isSome := by
            have h2 := hok.2
            simpa using h2
          obtain ⟨cv, hcv⟩ := Option.isSome_iff_exists.mp hok2
          simp [_get_credentials, hcv, htail, exceptBind_ok, exceptBind_error]

/-- C7: configuration-driven construction walks the entries in order past
any number of well-formed ones; the first entry lacking a `type` key makes
`from_config` fail with a `DataSetError` naming that dataset, and the
first entry whose `credentials` reference is absent from the credentials
mapping makes it fail with a `KeyError` naming the missing credentials
key.  In both cases the result is an error: no catalog is produced. -/
theorem from_config_failure_modes {α : Type}
    (pre rest : List (String × DataSetConfig)) (n : String)
    (cfg : DataSetConfig) (credentials : List (String × String))
    (journal : Option Nat)
    (hpre : ∀ e ∈ pre, entryOk credentials e = true) :
    (cfg.typeKey = none →
      DataCatalog.from_config (α := α) (pre ++ (n, cfg) :: rest)
          credentials journal =
        .error (.dataSetError ("`type` is missing from DataSet '" ++ n ++
          "' catalog configuration")))
    ∧ (∀ cname, cfg.typeKey.isSome → cfg.credentials = some cname →
        pyDictGet credentials cname = none →
        DataCatalog.from_config (α := α) (pre ++ (n, cfg) :: rest)
            credentials journal =
          .error (.keyError cname
            ("Unable to find credentials '" ++ cname ++
              "': check your data catalog and credentials configuration. See " ++
              "https://kedro.readthedocs.io/en/latest/kedro.io.DataCatalog.html " ++
              "for an example."))) := by
  constructor
  · intro htype
    have hloop : ∀ k, fromConfigLoop credentials k ((n, cfg) :: rest) =
        .error (.dataSetError ("`type` is missing from DataSet '" ++ n ++
          "' catalog configuration")) := by
      intro k
      simp [fromConfigLoop, htype]
    have := fromConfigLoop_error_frame credentials pre _ ((n, cfg) :: rest)
      hpre hloop 0
    simp [DataCatalog.from_config, this, exceptBind_error]
  · intro cname htype hcred hmiss
    have htype2 : cfg.typeKey.isNone = false := by
      cases hk : cfg.typeKey
      · rw [hk] at htype; simp at htype
      · simp [hk]
    have hloop : ∀ k, fromConfigLoop credentials k ((n, cfg) :: rest) =
        .error (.keyError cname
          ("Unable to find credentials '" ++ cname ++
            "': check your data catalog and credentials configuration. See " ++
            "https://kedro.readthedocs.io/en/latest/kedro.io.DataCatalog.html " ++
            "for an example.")) := by
      intro k
      simp [fromConfigLoop, htype2, hcred, _get_credentials, hmiss,
        exceptBind_error]
    have := fromConfigLoop_error_frame credentials pre _ ((n, cfg) :: rest)
      hpre hloop 0
    simp [DataCatalog.from_config, this, exceptBind_error]

/-- Witness for C7: after the well-formed entry `a`, the entry `b` without
`type` fails naming `b`; the entry `c` referencing missing credentials
fails naming the key `missing`. -/
theorem from_config_failure_modes_witness :
    ((∀ e ∈ [("a", DataSetConfig.mk (some "CSVLocalDataSet") none)],
        entryOk [("good", "tok")] e = true)
      ∧ (∀ e ∈ [("a", DataSetConfig.mk (some "CSVLocalDataSet") none)],
        entryOk [("good", "tok")] e = true))
    ∧ DataCatalog.from_config (α := Nat)
        ([("a", DataSetConfig.mk (some "CSVLocalDataSet") none)] ++
          ("b", DataSetConfig.mk none none) :: [])
        [("good", "tok")] none =
      .error (.dataSetError ("`type` is missing from DataSet '" ++ "b" ++
        "' catalog configuration"))
    ∧ DataCatalog.from_config (α := Nat)
        ([("a", DataSetConfig.mk (some "CSVLocalDataSet") none)] ++
          ("c", DataSetConfig.mk (some "CSVS3DataSet") (some "missing")) :: [])
        [("good", "tok")] none =
      .error (.keyError "missing"
        ("Unable to find credentials '" ++ "missing" ++
          "': check your data catalog and credentials configuration. See " ++
          "https://kedro.readthedocs.io/en/latest/kedro.io.DataCatalog.html " ++
          "for an example.")) :=
  ⟨⟨by decide, by decide⟩,
    (from_config_failure_modes [("a", DataSetConfig.mk (some "CSVLocalDataSet")
        none)] [] "b" (DataSetConfig.mk none none) [("good", "tok")] none
      (by decide)).1 rfl,
    (from_config_failure_modes [("a", DataSetConfig.mk (some "CSVLocalDataSet")
        none)] [] "c" (DataSetConfig.mk (some "CSVS3DataSet") (some "missing"))
        [("good", "tok")] none
      (by decide)).2 "missing" (by decide) rfl (by decide)⟩

theorem pyDictGet_isSome_of_mem_keys {κ ν : Type} [DecidableEq κ]
    (l : List (κ × ν)) (k : κ) (h : k ∈ pyDictKeys l) :
    (pyDictGet l k).isSome := by
  induction l with
  | nil => simp [pyDictKeys] at h
  | cons p rest ih =>
      obtain ⟨k2, v2⟩ := p
      by_cases h2 : k2 = k
      · simp [pyDictGet, h2]
      · have : k ∈ pyDictKeys rest := by
          simp [pyDictKeys] at h ⊢
          rcases h with h | h
          · exact absurd h.symm h2
          · exact h
        simp [pyDictGet, h2, ih this]

theorem pyDictKeys_set_fresh {κ ν : Type} [DecidableEq κ]
    (l : List (κ × ν)) (k : κ) (v : ν) (h : pyDictGet l k = none) :
    pyDictKeys (pyDictSet l k v) = pyDictKeys l ++ [k] := by
  induction l with
  | nil => simp [pyDictKeys, pyDictSet]
  | cons p rest ih =>
      obtain ⟨k2, v2⟩ := p
      by_cases h2 : k2 = k
      · simp [pyDictGet, h2] at h
      · simp only [pyDictGet, if_neg h2] at h
        have h3 := ih h
        simp only [pyDictKeys] at h3 ⊢
        simp [pyDictSet, h2, h3]

/-- C8: under the catalog invariant (transformer keys = registered names),
`shallow_copy` succeeds and the copy shares the very same dataset-instance
ids, transformer lists, defaults and journal reference.  Consequently a
`save` through the original is observed by a `load` through the copy (the
shared heap cell was updated).  Registering a fresh name in the copy
extends only the copy's listing: the new name was not, and still is not,
in the original's `list()` result. -/
theorem shallow_copy_shares {α : Type} (c : DataCatalog α)
    (hkeys : ∀ n ∈ pyDictKeys c.transformers, n ∈ pyDictKeys c.data_sets)
    (hcover : ∀ n ∈ pyDictKeys c.data_sets,
      (pyDictGet c.transformers n).isSome) :
    ∃ c', c.shallow_copy = .ok c'
      ∧ c'.data_sets = c.data_sets
      ∧ c'.transformers = c.transformers
      ∧ c'.default_transformers = c.default_transformers
      ∧ c'.journal = c.journal
      ∧ (∀ n i v st st', pyDictGet c.data_sets n = some i →
          c.save n v st = .ok st' →
          ∃ st2, c'.load n st' = .ok (st2, v))
      ∧ (∀ m d c2, pyDictGet c'.data_sets m = none →
          c'.add m d false = .ok c2 →
          c2.list = c.list ++ [m] ∧ m ∉ c.list) := by
  have hexcess : (pyDictKeys c.transformers).filter
      (fun k => ¬ (pyDictKeys c.data_sets).contains k) = [] := by
    rw [List.filter_eq_nil_iff]
    intro a ha
    simp only [decide_not, Bool.not_eq_true', decide_eq_false_iff_not,
      Decidable.not_not]
    exact List.elem_eq_true_of_mem (hkeys a ha)
  have hmissing : (pyDictKeys c.data_sets).filter
      (fun k => (pyDictGet c.transformers k).isNone) = [] := by
    rw [List.filter_eq_nil_iff]
    intro a ha
    have h2 := hcover a ha
    cases hg : pyDictGet c.transformers a
    · rw [hg] at h2
      simp at h2
    · simp [hg]
  have hcopy : c.shallow_copy =
      .ok { data_sets := c.data_sets,
            transformers := c.transformers,
            default_transformers := c.default_transformers,
            journal := c.journal,
            datasets := c.data_sets } := by
    simp only [DataCatalog.shallow_copy, DataCatalog.init, hexcess, hmissing]
    simp
  refine ⟨_, hcopy, rfl, rfl, rfl, rfl, ?_, ?_⟩
  · intro n i v st st' hreg hsave
    simp only [DataCatalog.save, hreg, saveChain_eq, rawSaveOp] at hsave
    cases hsave
    exact load_of_heap_value _ n i v _ hreg (by simp [pyDictGet_set_self])
  · intro m d c2 hm hadd
    simp only [DataCatalog.add, hm] at hadd
    simp at hadd
    have hlist : c2.list = pyDictKeys (pyDictSet c.data_sets m d) := by
      rw [← hadd]
      rfl
    rw [hlist, pyDictKeys_set_fresh c.data_sets m d hm]
    refine ⟨rfl, fun hmem => ?_⟩
    have := pyDictGet_isSome_of_mem_keys c.data_sets m hmem
    rw [hm] at this
    simp at this

/-- Witness for C8 at `exCatalog`: the copy shares instance 0 for `cars`;
saving 11 through the original is loaded back through the copy; adding
`boats` to the copy lists `[cars, boats]` while the original still lists
only `cars`. -/
theorem shallow_copy_shares_witness :
    ((∀ n ∈ pyDictKeys exCatalog.transformers,
        n ∈ pyDictKeys exCatalog.data_sets)
      ∧ (∀ n ∈ pyDictKeys exCatalog.data_sets,
          (pyDictGet exCatalog.transformers n).isSome))
    ∧ ∃ c', exCatalog.shallow_copy = .ok c'
        ∧ c'.data_sets = exCatalog.data_sets
        ∧ c'.transformers = exCatalog.transformers
        ∧ c'.default_transformers = exCatalog.default_transformers
        ∧ c'.journal = exCatalog.journal
        ∧ (∀ n i v st st', pyDictGet exCatalog.data_sets n = some i →
            exCatalog.save n v st = .ok st' →
            ∃ st2, c'.load n st' = .ok (st2, v))
        ∧ (∀ m d c2, pyDictGet c'.data_sets m = none →
            c'.add m d false = .ok c2 →
            c2.list = exCatalog.list ++ [m] ∧ m ∉ exCatalog.list) :=
  ⟨⟨by decide, by decide⟩,
    shallow_copy_shares exCatalog (by decide) (by decide)⟩

/-- Counterexample for C9: assigning to an attribute that *does* exist on
the frozen view (`cars`) raises an `AttributeError` whose message is
"Please change datasets through configuration." — it does not direct the
caller to the catalog's mutation API (`DataCatalog.add()`). -/
theorem frozen_setattr_existing_attr_msg :
    (frozenSetattr [("cars", 0)] "cars" 5).1 =
      "Operation not allowed! Please change datasets through configuration."
    ∧ mentionsCatalogAdd (frozenSetattr [("cars", 0)] "cars" 5).1 = false := by
  constructor
  · rfl
  · rfl

/-- C9 (amended): every attempted attribute assignment on the frozen view
raises `AttributeError` and leaves the view unchanged; the message directs
the caller to `DataCatalog.add()` when the attribute does not already
exist, and to changing the dataset configuration when it does; the frozen
view is rebuilt from the full registry on every successful `add`. -/
theorem frozen_setattr_always_raises {α : Type}
    (view : List (String × Nat)) (key : String) (value : Nat) :
    (frozenSetattr view key value).2 = view
    ∧ ((pyDictGet view key).isSome →
        (frozenSetattr view key value).1 =
          "Operation not allowed! Please change datasets through configuration.")
    ∧ ((pyDictGet view key).isNone →
        (frozenSetattr view key value).1 =
          "Operation not allowed! Please use DataCatalog.add() instead."
        ∧ mentionsCatalogAdd (frozenSetattr view key value).1 = true)
    ∧ ∀ (c c' : DataCatalog α) (n : String) (d : Nat) (r : Bool),
        c.add n d r = .ok c' → c'.datasets = c'.data_sets := by
  refine ⟨?_, ?_, ?_, ?_⟩
  · simp only [frozenSetattr]
    split <;> rfl
  · intro hs
    simp [frozenSetattr, hs]
  · intro hn
    have hs : (pyDictGet view key).isSome = false := by
      simp [Option.isNone_iff_eq_none] at hn
      simp [hn]
    constructor
    · simp [frozenSetattr, hs]
    · simp only [frozenSetattr, hs, Bool.false_eq_true, if_false]
      rfl
  · intro c c' n d r hadd
    simp only [DataCatalog.add] at hadd
    split at hadd
    · cases hadd
    · cases hadd
      rfl

/-- Witness for C9's amended theorem: assigning the fresh attribute
`boats` leaves the view unchanged and yields the message that names
`DataCatalog.add()`; the `add` of `boats` rebuilds the view to the full
new registry. -/
theorem frozen_setattr_always_raises_witness :
    ((frozenSetattr [("cars", 0)] "boats" 5).2 = [("cars", 0)]
      ∧ (pyDictGet [("cars", (0 : Nat))] "boats").isNone = true)
    ∧ (frozenSetattr [("cars", 0)] "boats" 5).1 =
        "Operation not allowed! Please use DataCatalog.add() instead."
    ∧ ∃ c', exCatalog.add "boats" 1 false = .ok c'
        ∧ c'.datasets = c'.data_sets :=
  ⟨⟨(frozen_setattr_always_raises (α := Nat) [("cars", 0)] "boats" 5).1,
      by decide⟩,
    ((frozen_setattr_always_raises (α := Nat) [("cars", 0)] "boats" 5).2.2.1
      (by decide)).1,
    ⟨_, by rfl,
      (frozen_setattr_always_raises (α := Nat) [("cars", 0)] "boats" 5).2.2.2
        exCatalog _ "boats" 1 false (by rfl)⟩⟩
